import Mathlib

/-!
Verification of the presence-and-notification router implemented by
server.js together with the ServerProxy class (radar module) of this
repository.  The JavaScript handlers are shallowly embedded as pure state
transformers on an explicit server state; exceptional control flow
(thrown TypeError / ReferenceError) is made explicit through error fields,
and JavaScript dynamic values are embedded as an inductive JSVal type so
that undefined-propagation in the source is modelled faithfully.
-/

set_option maxRecDepth 4000

/-- A JavaScript runtime value, restricted to the shapes that flow through
the handlers: undefined, booleans, numbers, strings, arrays and plain
objects (association lists of fields, in insertion order). -/
inductive JSVal where
  | undef : JSVal
  | bool : Bool → JSVal
  | num : Nat → JSVal
  | str : String → JSVal
  | arr : List JSVal → JSVal
  | obj : List (String × JSVal) → JSVal
deriving Repr

/-- JavaScript property read `v[f]`.  Reading a property of undefined throws
a TypeError (modelled as `Except.error`); reading a missing property of a
string, an array or an object yields undefined. -/
def jsGet (v : JSVal) (f : String) : Except String JSVal :=
  match v with
  | JSVal.undef => Except.error ("TypeError: cannot read property " ++ f ++ " of undefined")
  | JSVal.bool _ => Except.ok JSVal.undef
  | JSVal.num _ => Except.ok JSVal.undef
  | JSVal.str _ => Except.ok JSVal.undef
  | JSVal.arr _ => Except.ok JSVal.undef
  | JSVal.obj fs =>
      Except.ok (match fs.lookup f with
        | some w => w
        | none => JSVal.undef)

/-- JavaScript truthiness of a value. -/
def jsTruthy (v : JSVal) : Bool :=
  match v with
  | JSVal.undef => false
  | JSVal.bool b => b
  | JSVal.num n => n ≠ 0
  | JSVal.str s => s ≠ ""
  | JSVal.arr _ => true
  | JSVal.obj _ => true

/-- A handshake query (socket.handshake.query).  Absent fields are `none`;
a present field is a string (the empty string is falsy, like in JS). -/
structure Query where
  qid : Option String
  qroom : Option String
  qvisitor : Option String
  qadmin : Option String
  qstate : Option String
deriving DecidableEq, Repr

/-- Truthiness of an optional query field: absent or empty is falsy. -/
def truthyS (o : Option String) : Bool :=
  match o with
  | none => false
  | some s => s ≠ ""

/-- One live socket: its id and the query it presented at connect time. -/
structure SocketInfo where
  sid : String
  query : Query
deriving DecidableEq, Repr

/-- The server state the handlers read and write: the live sockets of the
namespace, the adapter groups (room name to member socket ids, present only
while non-empty) and the pendingWarnings Map of server.js (entries in Map
insertion order). -/
structure ServerState where
  sockets : List SocketInfo
  groups : List (String × List String)
  pendingWarnings : List (String × JSVal)
deriving Repr

/-- JS Map.prototype.has. -/
def mapHas (m : List (String × JSVal)) (k : String) : Bool :=
  (m.lookup k).isSome

/-- JS Map.prototype.set: replaces the value in place when the key is
already present (keeping its position), otherwise appends the new entry at
the end (Map iteration order is insertion order). -/
def mapSet (m : List (String × JSVal)) (k : String) (v : JSVal) :
    List (String × JSVal) :=
  match m with
  | [] => [(k, v)]
  | (k', v') :: t => if k' = k then (k, v) :: t else (k', v') :: mapSet t k v

/-- JS Map.prototype.delete: removes the entry for the key (Map keys are
unique, so removing every entry with that key agrees with the source). -/
def mapDelete (m : List (String × JSVal)) (k : String) :
    List (String × JSVal) :=
  m.filter (fun p => p.1 ≠ k)

/-- socket.join(room) at the adapter: adds the socket id to the group,
creating the group lazily; re-join is a no-op (the adapter stores members
as a set keyed by socket id). -/
def joinGroup (st : ServerState) (sid : String) (g : String) : ServerState :=
  { st with groups :=
      match st.groups.lookup g with
      | some mem =>
          st.groups.map (fun p =>
            if p.1 = g then (p.1, if sid ∈ mem then mem else mem ++ [sid]) else p)
      | none => st.groups ++ [(g, [sid])] }

/-- socket.leave(room) at the adapter: removes the socket id from the
group; the adapter deletes a group that becomes empty. -/
def leaveGroup (st : ServerState) (sid : String) (g : String) : ServerState :=
  let gs := st.groups.map (fun p =>
    if p.1 = g then (p.1, p.2.filter (fun m => m ≠ sid)) else p)
  { st with groups := gs.filter (fun p => ¬ p.2.isEmpty) }

/-- A socket coming online: socket.io registers it in the namespace and the
adapter auto-joins it to the group named after its own socket id (note that
server.js overrides generateId so that the socket id is the id carried in
the query when one is present). -/
def addSocket (st : ServerState) (sid : String) (q : Query) : ServerState :=
  joinGroup { st with sockets := st.sockets ++ [⟨sid, q⟩] } sid sid

/-- socket.disconnect(true): the socket leaves every group (empty groups
are pruned by the adapter) and is removed from the namespace. -/
def removeSocket (st : ServerState) (sid : String) : ServerState :=
  { sockets := st.sockets.filter (fun s => s.sid ≠ sid),
    groups := (st.groups.map (fun p => (p.1, p.2.filter (fun m => m ≠ sid)))).filter
      (fun p => ¬ p.2.isEmpty),
    pendingWarnings := st.pendingWarnings }

/-- ServerProxy.available: the online sockets whose query names a room. -/
def availableSockets (st : ServerState) : List SocketInfo :=
  st.sockets.filter (fun s => truthyS s.query.qroom)

/-- ServerProxy.visitors: the online sockets whose query names a visitor. -/
def visitorSockets (st : ServerState) : List SocketInfo :=
  st.sockets.filter (fun s => truthyS s.query.qvisitor)

/-- Key lookup in the adapter groups object (a group exists only while it
has members). -/
def groupExists (gs : List (String × List String)) (k : String) : Bool :=
  (gs.lookup k).isSome

/-- ServerProxy.openRooms: the available (room-named) sockets whose room
name is a key of the adapter groups object, i.e. the filter
a.filter(v onto o[v.room]) of the source. -/
def openRooms (st : ServerState) : List SocketInfo :=
  (availableSockets st).filter (fun s =>
    match s.query.qroom with
    | some r => groupExists st.groups r
    | none => false)

/-- ServerProxy.roomIdsIncludeSocket: rooms[roomName] and
rooms[roomName].sockets[id], as a boolean (the try/catch around it returns
false on a throw, and a missing group short-circuits the conjunction). -/
def roomIdsIncludeSocket (st : ServerState) (roomName id : String) : Bool :=
  match st.groups.lookup roomName with
  | none => false
  | some mem => mem.contains id

/-- ServerProxy.getOccupancy: throws when no room name is given; otherwise
reads rooms[room].length, which throws a TypeError when no group of that
name exists, and otherwise is the full member count of the group. -/
def getOccupancy (st : ServerState) (room : Option String) : Except String Nat :=
  if truthyS room = false then Except.error "No room name specified"
  else
    match st.groups.lookup (room.getD "") with
    | none => Except.error "TypeError: cannot read property length of undefined"
    | some mem => Except.ok mem.length

/-- The destination of an outbound emit: io.to(g).emit targets the group g
(g can be the JS value undefined, in which case nobody receives the event),
while io.of(namespace).emit broadcasts to every socket of the namespace. -/
inductive Target where
  | group : Option String → Target
  | nsp : Target
deriving DecidableEq, Repr

/-- One outbound emit: destination, event name (undefined is possible,
because the source can pass an undefined variable as the event) and
payload. -/
structure Emit where
  target : Target
  event : Option String
  payload : JSVal
deriving Repr

/-- The JSON shape of one entry of the ServerProxy.sockets getter. -/
def socketJson (st : ServerState) (s : SocketInfo) : JSVal :=
  JSVal.obj
    [("id", JSVal.str s.sid),
     ("room", match s.query.qroom with | some r => JSVal.str r | none => JSVal.undef),
     ("visitor", match s.query.qvisitor with | some v => JSVal.str v | none => JSVal.undef),
     ("namespace", JSVal.undef),
     ("connected", JSVal.bool true),
     ("occupiedRooms", JSVal.obj
       ((st.groups.filter (fun p => p.2.contains s.sid)).map
         (fun p => (p.1, JSVal.str p.1))))]

/-- The payload of the openRoomsExposed broadcast: the openRooms snapshot. -/
def openRoomsJson (st : ServerState) : JSVal :=
  JSVal.arr ((openRooms st).map (socketJson st))

/-- ServerProxy.updateOccupancy: when the room name is truthy and a group
of that name exists, it broadcasts updatedOccupancy and returns the
occupancy; the occupancy it computes is rooms.length of the adapter rooms
OBJECT, which is undefined, so the source expression
(this.rooms.length or-else 0) always evaluates to 0. -/
def updateOccupancy (st : ServerState) (room : Option String) :
    List Emit × Nat :=
  match room with
  | some r =>
      if r ≠ "" ∧ groupExists st.groups r then
        ([⟨Target.nsp, some "updatedOccupancy",
           JSVal.obj [("room", JSVal.str r), ("occupancy", JSVal.num 0)]⟩], 0)
      else ([], 0)
  | none => ([], 0)

/-- The result of running the handlePendings helper of server.js: the state
after it, the emits it produced, an exception that escaped it (it has no
try/catch of its own), and the early-return message when nothing was
pending. -/
structure HPOut where
  state : ServerState
  emits : List Emit
  err : Option String
  retMsg : Option String
deriving Repr

/-- The body of the pendingWarnings.forEach loop in the query.room branch of
handlePendings (server.js lines 92 to 104).  For each entry (key, value) of
the Map, in insertion order, the handler builds
message = visitor-empty, exposureDates = value.warnings[key].dates, room = key
(the property chain throws a TypeError when value.warnings or
value.warnings[key] is undefined), then calls
S.privateMessage(query.room, 'notifyRoom', message).  privateMessage only
has two parameters (event, message), so the event is the room name of the
query, the message is the STRING 'notifyRoom', the built message object is
discarded, and io.to(message.room) targets the undefined room of a string.
Finally the entry is deleted — the loop deletes EVERY key of the Map, not
only the one the guard checked. -/
def flushRoomLoop (qroom : String) :
    List (String × JSVal) → ServerState → List Emit →
    ServerState × List Emit × Option String
  | [], st, es => (st, es, none)
  | (key, value) :: rest, st, es =>
      match jsGet value "warnings" with
      | Except.error e => (st, es, some e)
      | Except.ok w =>
          match jsGet w key with
          | Except.error e => (st, es, some e)
          | Except.ok wk =>
              match jsGet wk "dates" with
              | Except.error e => (st, es, some e)
              | Except.ok _d =>
                  flushRoomLoop qroom rest
                    { st with pendingWarnings := mapDelete st.pendingWarnings key }
                    (es ++ [⟨Target.group none, some qroom, JSVal.str "notifyRoom"⟩])

/-- handlePendings of server.js (lines 82 to 126).  The query.room branch
flushes as described at flushRoomLoop.  The query.visitor / query.admin
branch, when something is pending for query.visitor, calls the BARE
identifier privateMessage, which is not defined anywhere in the module
scope of server.js, so the first iteration throws a ReferenceError before
any entry is deleted and before anything is emitted. -/
def handlePendings (query : Query) (st : ServerState) : HPOut :=
  if truthyS query.qroom then
    match query.qroom with
    | some qroom =>
        if mapHas st.pendingWarnings qroom = false then
          { state := st, emits := [], err := none,
            retMsg := some ("Nothing pending for " ++ qroom) }
        else
          let res := flushRoomLoop qroom st.pendingWarnings st []
          { state := res.1, emits := res.2.1, err := res.2.2, retMsg := none }
    | none => { state := st, emits := [], err := none, retMsg := none }
  else if truthyS query.qvisitor ∨ truthyS query.qadmin then
    if st.pendingWarnings.isEmpty ||
        (match query.qvisitor with
         | some v => ! mapHas st.pendingWarnings v
         | none => true) then
      { state := st, emits := [], err := none,
        retMsg := some ("Nothing pending for " ++ (query.qvisitor.getD "undefined")) }
    else
      { state := st, emits := [],
        err := some "ReferenceError: privateMessage is not defined",
        retMsg := none }
  else
    { state := st, emits := [], err := none, retMsg := none }

/-- onConnection of server.js (lines 62 to 80): runs handlePendings; when
that returns normally the handler finishes with S.exposeOpenRooms(), which
broadcasts the openRooms snapshot to the namespace; when handlePendings
throws, the exception propagates and the broadcast does not happen. -/
def onConnection (query : Query) (st : ServerState) : HPOut :=
  let h := handlePendings query st
  match h.err with
  | some _ => h
  | none =>
      { h with emits :=
          h.emits ++ [⟨Target.nsp, some "openRoomsExposed", openRoomsJson h.state⟩] }

/-- The result of the connection callback: state, emits, whether the socket
was forcibly disconnected, and an exception that escaped the callback. -/
structure ConnOut where
  state : ServerState
  emits : List Emit
  disconnected : Bool
  err : Option String
deriving Repr

/-- The io connection callback of server.js (lines 142 to 160).  The
transport first registers the socket (auto-joining its own id group).  When
query.id is truthy: if the query names a room and query.state equals the
string Opened, the socket re-joins that room and the openRooms snapshot is
broadcast, then onConnection runs (pending check).  When query.id is falsy,
the socket is disconnected immediately: no join, no pending check, no
emits. -/
def connectionHandler (sid : String) (query : Query) (st : ServerState) :
    ConnOut :=
  let st0 := addSocket st sid query
  if truthyS query.qid then
    if truthyS query.qroom ∧ query.qstate = some "Opened" then
      let st1 := joinGroup st0 sid (query.qroom.getD "")
      let o := onConnection query st1
      { state := o.state,
        emits := ⟨Target.nsp, some "openRoomsExposed", openRoomsJson st1⟩ :: o.emits,
        disconnected := false, err := o.err }
    else
      let o := onConnection query st0
      { state := o.state, emits := o.emits, disconnected := false, err := o.err }
  else
    { state := removeSocket st0 sid, emits := [], disconnected := true, err := none }

/-- The result of one protocol event handler: the state after it, the
emits, the acknowledgment calls it made (in order) and an exception, which
each handler catch block logs (so the err field records that the rest of
the handler was skipped). -/
structure HandlerOut where
  state : ServerState
  emits : List Emit
  acks : List JSVal
  err : Option String
deriving Repr

/-- onOpenRoom of server.js (lines 169 to 210): the socket joins the room,
S.exposeOpenRooms() broadcasts the openRooms snapshot, handlePendings runs
on the handshake query of the socket (inside the try, so a throw there is
caught and the acknowledgment is skipped), then the acknowledgment carries
the result of S.roomIdsIncludeSocket(room, id) with the id taken from the
event data. -/
def onOpenRoom (sid : String) (query : Query) (room idArg : String)
    (st : ServerState) : HandlerOut :=
  let st1 := joinGroup st sid room
  let es1 : List Emit := [⟨Target.nsp, some "openRoomsExposed", openRoomsJson st1⟩]
  let h := handlePendings query st1
  match h.err with
  | some e => { state := h.state, emits := es1 ++ h.emits, acks := [], err := some e }
  | none =>
      let assertion := roomIdsIncludeSocket h.state room idArg
      { state := h.state, emits := es1 ++ h.emits,
        acks := [JSVal.obj
          [("event", JSVal.str "onOpenRoom"),
           ("room", JSVal.str room),
           ("result", JSVal.bool assertion)]],
        err := none }

/-- The data of an enterRoom event: data.room.room (a string in the
protocol), the whole data.room object (echoed in acknowledgments and in the
checkIn payload), the visitor object and sentTime. -/
structure EnterRoomData where
  roomRoom : String
  roomObj : JSVal
  visitor : JSVal
  sentTime : JSVal
deriving Repr

/-- onEnterRoom of server.js (lines 245 to 312).  When no group named
data.room.room exists, the acknowledgment is called with the
Room-must-be-open error object — but the handler does NOT return: it still
joins the socket to the room group, still broadcasts checkIn to that group,
and (because the occupancy after the join is at least one) calls the
acknowledgment a second time with the success object. -/
def onEnterRoom (sid : String) (d : EnterRoomData) (st : ServerState) :
    HandlerOut :=
  let acks0 : List JSVal :=
    if groupExists st.groups d.roomRoom then []
    else [JSVal.obj
      [("error", JSVal.str "Room must be open before you can enter"),
       ("on", JSVal.str "server.onEnterRoom")]]
  let st1 := joinGroup st sid d.roomRoom
  let assertion := roomIdsIncludeSocket st1 d.roomRoom sid
  let checkIn : Emit :=
    ⟨Target.group (some d.roomRoom), some "checkIn",
     JSVal.obj
       [("visitor", d.visitor), ("sentTime", d.sentTime), ("room", d.roomObj),
        ("message", JSVal.str "Entered"), ("socketId", JSVal.str sid)]⟩
  match getOccupancy st1 (some d.roomRoom) with
  | Except.error e =>
      { state := st1, emits := [checkIn], acks := acks0, err := some e }
  | Except.ok occupants =>
      let ack2 : JSVal :=
        if occupants ≠ 0 then
          JSVal.obj
            [("event", JSVal.str "onEnterRoom"), ("room", d.roomObj),
             ("occupants", JSVal.num occupants), ("result", JSVal.bool assertion),
             ("emits", JSVal.str "checkIn")]
        else
          JSVal.obj
            [("event", JSVal.str "onEnterRoom"), ("room", d.roomObj),
             ("result", JSVal.str ("Could not enter Room " ++ d.roomRoom)),
             ("emits", JSVal.str "nothing")]
      { state := st1, emits := [checkIn], acks := acks0 ++ [ack2], err := none }

/-- The data of an exposureWarning event: the visitor object and the
warnings object, whose entries map a room name to an array of dates
(Object.entries order is insertion order for string keys). -/
structure ExposureWarningData where
  visitor : JSVal
  warnings : List (String × JSVal)
deriving Repr

/-- The whole data object of an exposureWarning event, as cached by
pendingWarnings.set(roomName, data). -/
def ewData (d : ExposureWarningData) : JSVal :=
  JSVal.obj [("visitor", d.visitor), ("warnings", JSVal.obj d.warnings)]

/-- The Object.entries(warnings).forEach loop of onExposureWarning
(server.js lines 356 to 368).  For each (roomName, dates): when some entry
of the openRooms snapshot names roomName, the handler calls
S.notifyRoom with the object (warning, visitor) — whose room property is
undefined, so notifyRoom passes THREE arguments to the two-parameter
privateMessage: the event becomes undefined, the message becomes the
string 'notifyRoom', io.to(message.room) targets the undefined room of a
string, and the returned result is the template string
(undefined WARNED).  Otherwise the whole data object is cached under the
room name and the result is (roomName PENDING). -/
def ewLoop (d : ExposureWarningData) :
    List (String × JSVal) → ServerState → List Emit → List String →
    ServerState × List Emit × List String
  | [], st, es, rs => (st, es, rs)
  | (roomName, _dates) :: rest, st, es, rs =>
      if ((openRooms st).filter (fun v => v.query.qroom = some roomName)).length ≠ 0 then
        ewLoop d rest st
          (es ++ [⟨Target.group none, none, JSVal.str "notifyRoom"⟩])
          (rs ++ ["undefined WARNED"])
      else
        ewLoop d rest
          { st with pendingWarnings := mapSet st.pendingWarnings roomName (ewData d) }
          es (rs ++ [roomName ++ " PENDING"])

/-- onExposureWarning of server.js (lines 345 to 385): runs the per-room
loop and acknowledges with the flattened list of per-room result strings. -/
def onExposureWarning (d : ExposureWarningData) (st : ServerState) :
    HandlerOut :=
  let res := ewLoop d d.warnings st [] []
  { state := res.1, emits := res.2.1,
    acks := [JSVal.obj
      [("event", JSVal.str "onExposureWarning"),
       ("result", JSVal.arr (res.2.2.map JSVal.str)),
       ("emit", JSVal.str "notifyRoom")]],
    err := none }

/-- The data of an alertVisitor event: message, visitor (a name string in
this protocol, absent is none) and id. -/
structure AlertVisitorData where
  message : JSVal
  visitor : Option String
  id : JSVal
deriving Repr

/-- The whole data object of an alertVisitor event, as cached by
pendingWarnings.set(visitor, data). -/
def avData (d : AlertVisitorData) : JSVal :=
  JSVal.obj
    [("message", d.message),
     ("visitor", match d.visitor with | some v => JSVal.str v | none => JSVal.undef),
     ("id", d.id)]

/-- onAlertVisitor of server.js (lines 389 to 431).  With a falsy message
or visitor, the acknowledgment receives the object built by calling new on
a cli-color style (an empty object: the constructor returns a styled
string, a primitive, so the freshly created empty object is returned
instead) and the handler returns.  Otherwise: when some online socket has
query.visitor strictly equal to the visitor, the handler calls
S.alertVisitor(data) — the ServerProxy class has NO alertVisitor method, so
a TypeError is thrown, caught by the catch block, and the acknowledgment is
never called.  When the visitor is offline, the data is cached under the
visitor name and the handler returns a status string to its caller WITHOUT
calling the acknowledgment. -/
def onAlertVisitor (d : AlertVisitorData) (st : ServerState) : HandlerOut :=
  if ! jsTruthy d.message || ! truthyS d.visitor then
    { state := st, emits := [], acks := [JSVal.obj []], err := none }
  else
    if ((visitorSockets st).filter
        (fun v => v.query.qvisitor = some (d.visitor.getD ""))).length ≠ 0 then
      { state := st, emits := [], acks := [],
        err := some "TypeError: S.alertVisitor is not a function" }
    else
      { state := { st with
          pendingWarnings :=
            mapSet st.pendingWarnings (d.visitor.getD "") (avData d) },
        emits := [], acks := [], err := none }

/-- Whether the openRooms snapshot reports the room name r as open (this is
the test onExposureWarning uses for its routing decision). -/
def reportedOpen (st : ServerState) (r : String) : Bool :=
  (openRooms st).any (fun s => s.query.qroom == some r)

/-- Membership of a socket id in a group (spec-side helper). -/
def sidInGroup (st : ServerState) (sid g : String) : Bool :=
  match st.groups.lookup g with
  | none => false
  | some mem => mem.contains sid

/-- The spec-side notion of an open room, following the words of the spec
for the refinement comparison of claim C2: isOpen(roomName) is true iff the
registry has a live Room-kind connection named roomName AND the id of that
connection is a member of the group roomName. -/
def isOpenSpec (st : ServerState) (r : String) : Bool :=
  st.sockets.any (fun s => s.query.qroom == some r && sidInGroup st s.sid r)

/-- Handshake query of a Room socket for the room Cafe1 (fresh connect,
state not yet Opened). -/
def qRoomCafe : Query := ⟨some "r1", some "Cafe1", none, none, none⟩

/-- Handshake query of the Visitor socket of Ann. -/
def qAnn : Query := ⟨some "v1", none, some "Ann", none, none⟩

/-- Handshake query of the Visitor socket of Bob. -/
def qBob : Query := ⟨some "b1", none, some "Bob", none, none⟩

/-- Handshake query of a Room socket reconnecting with state Opened. -/
def qRoomOpened : Query := ⟨some "r1", some "Cafe1", none, none, some "Opened"⟩

/-- A handshake query carrying no id at all. -/
def qNoId : Query := ⟨none, none, some "Eve", none, none⟩

/-- The empty server state at process start. -/
def st0 : ServerState := ⟨[], [], []⟩

/-- State after the Room socket of Cafe1 connects (its own Room is not yet
opened: no group named Cafe1 exists). -/
def stR : ServerState := (connectionHandler "r1" qRoomCafe st0).state

/-- State after the Visitor socket of Ann also connects. -/
def stRV : ServerState := (connectionHandler "v1" qAnn stR).state

/-- The enterRoom event data Ann sends for Cafe1. -/
def dEnterCafe : EnterRoomData :=
  ⟨"Cafe1",
   JSVal.obj [("room", JSVal.str "Cafe1"), ("id", JSVal.str "r1")],
   JSVal.obj [("visitor", JSVal.str "Ann"), ("id", JSVal.str "v1")],
   JSVal.str "2021-01-01T10:00"⟩

/-- Running onEnterRoom for Ann while Cafe1 is not open. -/
def outEnterClosed : HandlerOut := onEnterRoom "v1" dEnterCafe stRV

/-- The state reached after that enterRoom: Cafe1 has a group containing
only the visitor socket, while the Room socket of Cafe1 never joined. -/
def stEntered : ServerState := outEnterClosed.state

/-- The exposureWarning data Bob sends for Cafe1. -/
def dWarnCafe : ExposureWarningData :=
  ⟨JSVal.obj [("visitor", JSVal.str "Bob"), ("id", JSVal.str "b1")],
   [("Cafe1", JSVal.arr [JSVal.str "2021-01-01"])]⟩

/-- An exposureWarning naming two closed rooms, Cafe1 and Pub2. -/
def dWarnTwo : ExposureWarningData :=
  ⟨JSVal.obj [("visitor", JSVal.str "Bob"), ("id", JSVal.str "b1")],
   [("Cafe1", JSVal.arr [JSVal.str "2021-01-01"]),
    ("Pub2", JSVal.arr [JSVal.str "2021-01-02"])]⟩

/-- The alertVisitor data a Room sends for Bob. -/
def dAlertBob : AlertVisitorData :=
  ⟨JSVal.str "please get tested", some "Bob", JSVal.str "r1"⟩

/-- State after the Room socket of Cafe1 connects and then opens its room
through the openRoom event: group Cafe1 contains the room socket. -/
def stOpen : ServerState := (onOpenRoom "r1" qRoomCafe "Cafe1" "r1" stR).state

/-- Running onExposureWarning for Cafe1 while Cafe1 is reported open. -/
def outWarnOpen : HandlerOut := onExposureWarning dWarnCafe stOpen

/-- Running onExposureWarning for Cafe1 while Cafe1 is closed (the Room
socket is connected but never joined its group). -/
def outWarnClosed : HandlerOut := onExposureWarning dWarnCafe stR

/-- Running onOpenRoom for Cafe1 with a warning pending for Cafe1: this is
the flush moment of claim C5. -/
def outOpenFlush : HandlerOut :=
  onOpenRoom "r1" qRoomCafe "Cafe1" "r1" outWarnClosed.state

/-- State holding one pending alert for Bob (cached by onAlertVisitor while
Bob was offline). -/
def stPendingBob : ServerState := (onAlertVisitor dAlertBob st0).state

/-- Bob connecting while an alert is pending for him: the drain moment of
claim C3. -/
def outBobConnect : ConnOut := connectionHandler "b1" qBob stPendingBob

/-- State after Bob connects with an empty cache (Bob online). -/
def stBobOnline : ServerState := (connectionHandler "b1" qBob st0).state

/-- onAlertVisitor while Bob is online. -/
def outAlertOnline : HandlerOut := onAlertVisitor dAlertBob stBobOnline

/-- onAlertVisitor while Bob is offline. -/
def outAlertOffline : HandlerOut := onAlertVisitor dAlertBob st0

/-- State with two pending room warnings (Cafe1 and Pub2), both cached by
one exposureWarning while both rooms were closed. -/
def stTwoPending : ServerState := (onExposureWarning dWarnTwo stR).state

/-- State holding a pending visitor alert for Bob (cached first) followed
by a pending room warning for Cafe1: a mixed cache whose first entry, the
alert data, has no warnings property. -/
def stMixed : ServerState :=
  (onExposureWarning dWarnCafe (onAlertVisitor dAlertBob stR).state).state

/-- handlePendings triggered for Cafe1 on the two-entry cache: the drain of
claim C6. -/
def outDrainCafe : HPOut := handlePendings qRoomCafe stTwoPending

/-- State in which Cafe1 is genuinely open (room socket joined its group)
and Ann has entered: group Cafe1 holds the room socket and the visitor. -/
def stOccupied : ServerState :=
  (onEnterRoom "v1" dEnterCafe (connectionHandler "v1" qAnn stOpen).state).state

/-- The keys of the pendingWarnings Map, in insertion order. -/
def pendingKeys (m : List (String × JSVal)) : List String := m.map Prod.fst

/-- The keys of a Map are pairwise distinct (the invariant JS Maps keep). -/
def NodupKeys (m : List (String × JSVal)) : Prop := (pendingKeys m).Nodup

/-- An entry whose flush in the query.room branch of handlePendings
evaluates the property chain value.warnings[key].dates without throwing. -/
def flushOk (k : String) (v : JSVal) : Bool :=
  match jsGet v "warnings" with
  | Except.error _ => false
  | Except.ok w =>
      match jsGet w k with
      | Except.error _ => false
      | Except.ok wk =>
          match jsGet wk "dates" with
          | Except.error _ => false
          | Except.ok _ => true

theorem filter_key_eq_nil {m : List (String × JSVal)} {k : String}
    (h : k ∉ pendingKeys m) : m.filter (fun p => p.1 = k) = [] := by
  induction m with
  | nil => rfl
  | cons p t ih =>
      simp only [pendingKeys, List.map_cons, List.mem_cons, not_or] at h
      rw [List.filter_cons_of_neg, ih h.2]
      simp [Ne.symm h.1]

theorem filter_key_length_le_one {m : List (String × JSVal)} {k : String}
    (h : NodupKeys m) : (m.filter (fun p => p.1 = k)).length ≤ 1 := by
  induction m with
  | nil => simp
  | cons p t ih =>
      simp only [NodupKeys, pendingKeys, List.map_cons, List.nodup_cons] at h
      by_cases hk : p.1 = k
      · rw [List.filter_cons_of_pos (by simp [hk]), filter_key_eq_nil (hk ▸ h.1)]
        simp
      · rw [List.filter_cons_of_neg (by simp [hk])]
        exact ih h.2

theorem mapSet_filter_self {m : List (String × JSVal)} {k : String} (v : JSVal)
    (h : NodupKeys m) : (mapSet m k v).filter (fun p => p.1 = k) = [(k, v)] := by
  induction m with
  | nil => simp [mapSet]
  | cons p t ih =>
      simp only [NodupKeys, pendingKeys, List.map_cons, List.nodup_cons] at h
      obtain ⟨ph, pt⟩ := p
      by_cases hk : ph = k
      · subst hk
        rw [show mapSet ((ph, pt) :: t) ph v = (ph, v) :: t from by simp [mapSet]]
        rw [List.filter_cons_of_pos (by simp), filter_key_eq_nil h.1]
      · rw [show mapSet ((ph, pt) :: t) k v = (ph, pt) :: mapSet t k v from by
            simp [mapSet, hk]]
        rw [List.filter_cons_of_neg (by simp [hk])]
        exact ih h.2

theorem mem_pendingKeys_mapSet {m : List (String × JSVal)} {k a : String}
    {v : JSVal} (h : a ∈ pendingKeys (mapSet m k v)) :
    a ∈ pendingKeys m ∨ a = k := by
  induction m with
  | nil => simpa [mapSet, pendingKeys] using h
  | cons p t ih =>
      obtain ⟨ph, pt⟩ := p
      by_cases hk : ph = k
      · subst hk
        simp [mapSet, pendingKeys] at h ⊢
        tauto
      · simp only [mapSet, if_neg hk, pendingKeys, List.map_cons, List.mem_cons] at h ⊢
        rcases h with h | h
        · exact Or.inl (Or.inl h)
        · rcases ih h with h' | h'
          · exact Or.inl (Or.inr h')
          · exact Or.inr h'

theorem nodupKeys_mapSet {m : List (String × JSVal)} {k : String} {v : JSVal}
    (h : NodupKeys m) : NodupKeys (mapSet m k v) := by
  induction m with
  | nil => simp [NodupKeys, mapSet, pendingKeys]
  | cons p t ih =>
      obtain ⟨ph, pt⟩ := p
      simp only [NodupKeys, pendingKeys, List.map_cons, List.nodup_cons] at h
      by_cases hk : ph = k
      · subst hk
        have he : mapSet ((ph, pt) :: t) ph v = (ph, v) :: t := by simp [mapSet]
        rw [he]
        simpa [NodupKeys, pendingKeys] using h
      · have he : mapSet ((ph, pt) :: t) k v = (ph, pt) :: mapSet t k v := by
          simp [mapSet, hk]
        rw [he]
        simp only [NodupKeys, pendingKeys, List.map_cons, List.nodup_cons]
        refine ⟨fun hmem => ?_, ih h.2⟩
        rcases mem_pendingKeys_mapSet hmem with h' | h'
        · exact h.1 h'
        · exact hk h'

theorem nodupKeys_mapDelete {m : List (String × JSVal)} (k : String)
    (h : NodupKeys m) : NodupKeys (mapDelete m k) :=
  List.Nodup.sublist (List.Sublist.map Prod.fst (List.filter_sublist m)) h

theorem flushRoomLoop_frame (r : String) (l : List (String × JSVal)) :
    ∀ (st : ServerState) (es : List Emit),
      (flushRoomLoop r l st es).1.groups = st.groups ∧
      (flushRoomLoop r l st es).1.sockets = st.sockets := by
  induction l with
  | nil => intro st es; exact ⟨rfl, rfl⟩
  | cons p rest ih =>
      intro st es
      obtain ⟨k, v⟩ := p
      simp only [flushRoomLoop]
      split
      · exact ⟨rfl, rfl⟩
      · split
        · exact ⟨rfl, rfl⟩
        · split
          · exact ⟨rfl, rfl⟩
          · exact ih _ _

theorem flushRoomLoop_pend_nodup (r : String) (l : List (String × JSVal)) :
    ∀ (st : ServerState) (es : List Emit),
      NodupKeys st.pendingWarnings →
      NodupKeys (flushRoomLoop r l st es).1.pendingWarnings := by
  induction l with
  | nil => intro st es h; exact h
  | cons p rest ih =>
      intro st es h
      obtain ⟨k, v⟩ := p
      simp only [flushRoomLoop]
      split
      · exact h
      · split
        · exact h
        · split
          · exact h
          · exact ih _ _ (nodupKeys_mapDelete k h)

theorem flushOk_spec {k : String} {v : JSVal} (h : flushOk k v = true) :
    ∃ w wk d, jsGet v "warnings" = Except.ok w ∧ jsGet w k = Except.ok wk ∧
      jsGet wk "dates" = Except.ok d := by
  unfold flushOk at h
  split at h
  · exact absurd h (by simp)
  · split at h
    · exact absurd h (by simp)
    · split at h
      · exact absurd h (by simp)
      · exact ⟨_, _, _, by assumption, by assumption, by assumption⟩

theorem flushRoomLoop_ok (r : String) (l : List (String × JSVal)) :
    ∀ (st : ServerState) (es : List Emit),
      (∀ p ∈ l, flushOk p.1 p.2 = true) →
      flushRoomLoop r l st es =
        ({ st with
            pendingWarnings :=
              l.foldl (fun m p => mapDelete m p.1) st.pendingWarnings },
         es ++ l.map (fun _ => ⟨Target.group none, some r, JSVal.str "notifyRoom"⟩),
         none) := by
  induction l with
  | nil => intro st es _; simp [flushRoomLoop]
  | cons p rest ih =>
      intro st es hok
      obtain ⟨k, v⟩ := p
      have hk : flushOk k v = true := hok (k, v) (List.mem_cons_self _ _)
      have hrest : ∀ p ∈ rest, flushOk p.1 p.2 = true :=
        fun p hp => hok p (List.mem_cons_of_mem _ hp)
      obtain ⟨w, wk, d, hw, hwk, hd⟩ := flushOk_spec hk
      simp only [flushRoomLoop, hw, hwk, hd]
      rw [ih _ _ hrest]
      simp [List.foldl_cons, List.append_assoc]

theorem foldl_mapDelete_eq_nil (ks : List String) :
    ∀ (m : List (String × JSVal)), (∀ p ∈ m, p.1 ∈ ks) →
      ks.foldl mapDelete m = [] := by
  induction ks with
  | nil =>
      intro m h
      cases m with
      | nil => rfl
      | cons p t => exact absurd (h p (List.mem_cons_self _ _)) (by simp)
  | cons k ks ih =>
      intro m h
      simp only [List.foldl_cons]
      refine ih _ (fun p hp => ?_)
      simp only [mapDelete, List.mem_filter] at hp
      have := h p hp.1
      simp only [List.mem_cons] at this
      rcases this with h' | h'
      · exact absurd h' (by simpa using hp.2)
      · exact h'

theorem foldl_delete_pairs_self (m : List (String × JSVal)) :
    m.foldl (fun acc p => mapDelete acc p.1) m = [] := by
  have h1 : m.foldl (fun acc p => mapDelete acc p.1) m =
      (m.map Prod.fst).foldl mapDelete m := by
    rw [List.foldl_map]
  rw [h1]
  exact foldl_mapDelete_eq_nil _ m (fun p hp => List.mem_map_of_mem Prod.fst hp)

theorem mapDelete_cons_self {k : String} {v : JSVal}
    {rest : List (String × JSVal)} (h : NodupKeys ((k, v) :: rest)) :
    mapDelete ((k, v) :: rest) k = rest := by
  simp only [NodupKeys, pendingKeys, List.map_cons, List.nodup_cons] at h
  unfold mapDelete
  rw [List.filter_cons_of_neg (by simp)]
  exact List.filter_eq_self.mpr (fun p hp => by
    simp only [decide_eq_true_eq]
    intro heq
    exact h.1 (heq ▸ List.mem_map_of_mem Prod.fst hp))

theorem flushOk_false_spec {k : String} {v : JSVal} (h : flushOk k v = false) :
    (∃ e, jsGet v "warnings" = Except.error e) ∨
    (∃ w e, jsGet v "warnings" = Except.ok w ∧ jsGet w k = Except.error e) ∨
    (∃ w wk e, jsGet v "warnings" = Except.ok w ∧ jsGet w k = Except.ok wk ∧
      jsGet wk "dates" = Except.error e) := by
  unfold flushOk at h
  split at h
  · exact Or.inl ⟨_, by assumption⟩
  · split at h
    · exact Or.inr (Or.inl ⟨_, _, by assumption, by assumption⟩)
    · split at h
      · exact Or.inr (Or.inr ⟨_, _, _, by assumption, by assumption, by assumption⟩)
      · simp at h

theorem flushRoomLoop_cons_not_ok (r : String) {k : String} {v : JSVal}
    (rest : List (String × JSVal)) (st : ServerState) (es : List Emit)
    (h : flushOk k v = false) :
    ∃ e, flushRoomLoop r ((k, v) :: rest) st es = (st, es, some e) := by
  rcases flushOk_false_spec h with ⟨e, hw⟩ | ⟨w, e, hw, hwk⟩ | ⟨w, wk, e, hw, hwk, hd⟩
  · exact ⟨e, by simp only [flushRoomLoop, hw]⟩
  · exact ⟨e, by simp only [flushRoomLoop, hw, hwk]⟩
  · exact ⟨e, by simp only [flushRoomLoop, hw, hwk, hd]⟩

theorem flushRoomLoop_self (r : String) :
    ∀ (l : List (String × JSVal)) (st : ServerState) (es : List Emit),
      st.pendingWarnings = l → NodupKeys l →
      (flushRoomLoop r l st es).1.pendingWarnings =
        l.drop (l.takeWhile (fun p => flushOk p.1 p.2)).length ∧
      (flushRoomLoop r l st es).2.1 =
        es ++ (l.takeWhile (fun p => flushOk p.1 p.2)).map
          (fun _ => ⟨Target.group none, some r, JSVal.str "notifyRoom"⟩) ∧
      ((flushRoomLoop r l st es).2.2 = none ↔
        ∀ p ∈ l, flushOk p.1 p.2 = true) := by
  intro l
  induction l with
  | nil =>
      intro st es hpe hnd
      refine ⟨by simpa using hpe, by simp [flushRoomLoop], ?_⟩
      simp [flushRoomLoop]
  | cons p rest ih =>
      intro st es hpe hnd
      obtain ⟨k, v⟩ := p
      by_cases hok : flushOk k v = true
      · obtain ⟨w, wk, d, hw, hwk, hd⟩ := flushOk_spec hok
        have hdel : ({ st with
            pendingWarnings := mapDelete st.pendingWarnings k } : ServerState).pendingWarnings
            = rest := by
          show mapDelete st.pendingWarnings k = rest
          rw [hpe]
          exact mapDelete_cons_self hnd
        have hnd' : NodupKeys rest := by
          simp only [NodupKeys, pendingKeys, List.map_cons, List.nodup_cons] at hnd
          exact hnd.2
        have hrec := ih { st with pendingWarnings := mapDelete st.pendingWarnings k }
          (es ++ [⟨Target.group none, some r, JSVal.str "notifyRoom"⟩]) hdel hnd'
        simp only [flushRoomLoop, hw, hwk, hd]
        refine ⟨?_, ?_, ?_⟩
        · rw [hrec.1]
          simp [List.takeWhile_cons, hok]
        · rw [hrec.2.1]
          simp [List.takeWhile_cons, hok]
        · rw [hrec.2.2]
          constructor
          · intro hall p hp
            rcases List.mem_cons.mp hp with h | h
            · rw [h]; exact hok
            · exact hall p h
          · intro hall p hp
            exact hall p (List.mem_cons_of_mem _ hp)
      · have hok' : flushOk k v = false := by
          cases hfk : flushOk k v
          · rfl
          · exact absurd hfk hok
        obtain ⟨e, he⟩ := flushRoomLoop_cons_not_ok r rest st es hok'
        rw [he]
        refine ⟨?_, ?_, ?_⟩
        · simp only [List.takeWhile_cons]
          rw [if_neg (by simp [hok'])]
          simpa using hpe
        · simp only [List.takeWhile_cons]
          rw [if_neg (by simp [hok'])]
          simp
        · constructor
          · intro hcontra
            exact Option.noConfusion hcontra
          · intro hall
            exact absurd (hall (k, v) (List.mem_cons_self _ _)) (by simp [hok'])

theorem ewLoop_frame (d : ExposureWarningData) (l : List (String × JSVal)) :
    ∀ (st : ServerState) (es : List Emit) (rs : List String),
      (ewLoop d l st es rs).1.groups = st.groups ∧
      (ewLoop d l st es rs).1.sockets = st.sockets := by
  induction l with
  | nil => intro st es rs; exact ⟨rfl, rfl⟩
  | cons p rest ih =>
      intro st es rs
      obtain ⟨roomName, dates⟩ := p
      simp only [ewLoop]
      split
      · exact ih _ _ _
      · exact ih _ _ _

theorem ewLoop_pend_nodup (d : ExposureWarningData) (l : List (String × JSVal)) :
    ∀ (st : ServerState) (es : List Emit) (rs : List String),
      NodupKeys st.pendingWarnings →
      NodupKeys (ewLoop d l st es rs).1.pendingWarnings := by
  induction l with
  | nil => intro st es rs h; exact h
  | cons p rest ih =>
      intro st es rs h
      obtain ⟨roomName, dates⟩ := p
      simp only [ewLoop]
      split
      · exact ih _ _ _ h
      · exact ih _ _ _ (nodupKeys_mapSet h)

theorem handlePendings_frame (q : Query) (st : ServerState) :
    (handlePendings q st).state.groups = st.groups ∧
    (handlePendings q st).state.sockets = st.sockets := by
  unfold handlePendings
  split
  · split
    · split
      · exact ⟨rfl, rfl⟩
      · exact flushRoomLoop_frame _ st.pendingWarnings st []
    · exact ⟨rfl, rfl⟩
  · split
    · split
      · exact ⟨rfl, rfl⟩
      · exact ⟨rfl, rfl⟩
    · exact ⟨rfl, rfl⟩

theorem handlePendings_pend_nodup (q : Query) (st : ServerState)
    (h : NodupKeys st.pendingWarnings) :
    NodupKeys (handlePendings q st).state.pendingWarnings := by
  unfold handlePendings
  split
  · split
    · split
      · exact h
      · exact flushRoomLoop_pend_nodup _ st.pendingWarnings st [] h
    · exact h
  · split
    · split
      · exact h
      · exact h
    · exact h

theorem onConnection_state (q : Query) (st : ServerState) :
    (onConnection q st).state = (handlePendings q st).state := by
  cases h : (handlePendings q st).err <;> simp [onConnection, h]

theorem joinGroup_pend (st : ServerState) (sid g : String) :
    (joinGroup st sid g).pendingWarnings = st.pendingWarnings := rfl

theorem addSocket_pend (st : ServerState) (sid : String) (q : Query) :
    (addSocket st sid q).pendingWarnings = st.pendingWarnings := rfl

theorem removeSocket_pend (st : ServerState) (sid : String) :
    (removeSocket st sid).pendingWarnings = st.pendingWarnings := rfl

theorem leaveGroup_pend (st : ServerState) (sid g : String) :
    (leaveGroup st sid g).pendingWarnings = st.pendingWarnings := rfl

theorem onConnection_pend_nodup (q : Query) (st : ServerState)
    (h : NodupKeys st.pendingWarnings) :
    NodupKeys (onConnection q st).state.pendingWarnings := by
  rw [onConnection_state]
  exact handlePendings_pend_nodup q st h

theorem connectionHandler_state (sid : String) (q : Query) (st : ServerState) :
    (connectionHandler sid q st).state.pendingWarnings =
      (if truthyS q.qid then
        (handlePendings q
          (if truthyS q.qroom ∧ q.qstate = some "Opened" then
            joinGroup (addSocket st sid q) sid (q.qroom.getD "")
          else addSocket st sid q)).state.pendingWarnings
      else st.pendingWarnings) := by
  unfold connectionHandler
  by_cases h1 : truthyS q.qid
  · simp only [if_pos h1]
    by_cases h2 : truthyS q.qroom ∧ q.qstate = some "Opened"
    · simp only [if_pos h2]
      rw [onConnection_state]
    · simp only [if_neg h2]
      rw [onConnection_state]
  · simp only [if_neg h1]
    rfl

theorem connectionHandler_pend_nodup (sid : String) (q : Query)
    (st : ServerState) (h : NodupKeys st.pendingWarnings) :
    NodupKeys (connectionHandler sid q st).state.pendingWarnings := by
  rw [connectionHandler_state]
  by_cases h1 : truthyS q.qid
  · simp only [if_pos h1]
    by_cases h2 : truthyS q.qroom ∧ q.qstate = some "Opened"
    · simp only [if_pos h2]
      exact handlePendings_pend_nodup q _ h
    · simp only [if_neg h2]
      exact handlePendings_pend_nodup q _ h
  · simp only [if_neg h1]
    exact h

theorem onOpenRoom_state (sid : String) (q : Query) (room idArg : String)
    (st : ServerState) :
    (onOpenRoom sid q room idArg st).state =
      (handlePendings q (joinGroup st sid room)).state := by
  unfold onOpenRoom
  cases h : (handlePendings q (joinGroup st sid room)).err <;> simp [h]

theorem onOpenRoom_pend_nodup (sid : String) (q : Query) (room idArg : String)
    (st : ServerState) (h : NodupKeys st.pendingWarnings) :
    NodupKeys (onOpenRoom sid q room idArg st).state.pendingWarnings := by
  rw [onOpenRoom_state]
  exact handlePendings_pend_nodup q _ h

theorem onEnterRoom_state (sid : String) (d : EnterRoomData)
    (st : ServerState) :
    (onEnterRoom sid d st).state = joinGroup st sid d.roomRoom := by
  unfold onEnterRoom
  cases h : getOccupancy (joinGroup st sid d.roomRoom) (some d.roomRoom) <;>
    simp [h]

theorem onEnterRoom_pend_nodup (sid : String) (d : EnterRoomData)
    (st : ServerState) (h : NodupKeys st.pendingWarnings) :
    NodupKeys (onEnterRoom sid d st).state.pendingWarnings := by
  rw [onEnterRoom_state, joinGroup_pend]
  exact h

theorem onExposureWarning_state (d : ExposureWarningData) (st : ServerState) :
    (onExposureWarning d st).state = (ewLoop d d.warnings st [] []).1 := rfl

theorem onExposureWarning_pend_nodup (d : ExposureWarningData)
    (st : ServerState) (h : NodupKeys st.pendingWarnings) :
    NodupKeys (onExposureWarning d st).state.pendingWarnings := by
  rw [onExposureWarning_state]
  exact ewLoop_pend_nodup d d.warnings st [] [] h

theorem onAlertVisitor_pend_nodup (d : AlertVisitorData) (st : ServerState)
    (h : NodupKeys st.pendingWarnings) :
    NodupKeys (onAlertVisitor d st).state.pendingWarnings := by
  unfold onAlertVisitor
  split
  · exact h
  · split
    · exact h
    · exact nodupKeys_mapSet h

/-- The states the server can reach: the empty start state, and the result
state of any modelled inbound event applied to a reachable state. -/
inductive Reach : ServerState → Prop where
  | init : Reach st0
  | conn (sid : String) (q : Query) {st : ServerState} :
      Reach st → Reach (connectionHandler sid q st).state
  | openRoomEv (sid : String) (q : Query) (room idArg : String)
      {st : ServerState} : Reach st → Reach (onOpenRoom sid q room idArg st).state
  | enterRoomEv (sid : String) (d : EnterRoomData) {st : ServerState} :
      Reach st → Reach (onEnterRoom sid d st).state
  | exposureWarningEv (d : ExposureWarningData) {st : ServerState} :
      Reach st → Reach (onExposureWarning d st).state
  | alertVisitorEv (d : AlertVisitorData) {st : ServerState} :
      Reach st → Reach (onAlertVisitor d st).state
  | closeRoomEv (sid room : String) {st : ServerState} :
      Reach st → Reach (leaveGroup st sid room)
  | leaveRoomEv (sid room : String) {st : ServerState} :
      Reach st → Reach (leaveGroup st sid room)
  | disconnectEv (sid : String) {st : ServerState} :
      Reach st → Reach (removeSocket st sid)

theorem reach_pend_nodup {st : ServerState} (h : Reach st) :
    NodupKeys st.pendingWarnings := by
  induction h with
  | init => simp [NodupKeys, pendingKeys, st0]
  | conn sid q _ ih => exact connectionHandler_pend_nodup sid q _ ih
  | openRoomEv sid q room idArg _ ih => exact onOpenRoom_pend_nodup sid q room idArg _ ih
  | enterRoomEv sid d _ ih => exact onEnterRoom_pend_nodup sid d _ ih
  | exposureWarningEv d _ ih => exact onExposureWarning_pend_nodup d _ ih
  | alertVisitorEv d _ ih => exact onAlertVisitor_pend_nodup d _ ih
  | closeRoomEv sid room _ ih => exact ih
  | leaveRoomEv sid room _ ih => exact ih
  | disconnectEv sid _ ih => exact ih

theorem reportedOpen_iff (st : ServerState) (r : String) :
    reportedOpen st r =
      ((r != "") && st.sockets.any (fun s => s.query.qroom == some r) &&
        groupExists st.groups r) := by
  rw [Bool.eq_iff_iff]
  simp only [reportedOpen, openRooms, availableSockets, List.any_eq_true,
    List.mem_filter, Bool.and_eq_true, beq_iff_eq, bne_iff_ne, ne_eq]
  constructor
  · rintro ⟨s, ⟨⟨hs, htr⟩, ho⟩, hqr⟩
    rw [hqr] at htr ho
    refine ⟨⟨?_, s, hs, hqr⟩, ho⟩
    simpa [truthyS] using htr
  · rintro ⟨⟨hr, s, hs, hqr⟩, hg⟩
    refine ⟨s, ⟨⟨hs, ?_⟩, ?_⟩, hqr⟩
    · rw [hqr]; simpa [truthyS] using hr
    · rw [hqr]; exact hg

theorem lookup_append_of_none {l l' : List (String × List String)} {g : String}
    (h : l.lookup g = none) : (l ++ l').lookup g = l'.lookup g := by
  induction l with
  | nil => rfl
  | cons p t ih =>
      obtain ⟨k, v⟩ := p
      by_cases hk : g = k
      · subst hk; simp [List.lookup] at h
      · have hbk : (g == k) = false := by simpa using hk
        simp only [List.cons_append, List.lookup, hbk] at h ⊢
        exact ih h

theorem exists_key_of_lookup_eq_some {l : List (String × List String)}
    {g : String} {v : List String} (h : l.lookup g = some v) :
    ∃ p ∈ l, p.1 = g := by
  induction l with
  | nil => simp [List.lookup] at h
  | cons p t ih =>
      obtain ⟨k, w⟩ := p
      by_cases hk : g = k
      · exact ⟨(k, w), List.mem_cons_self _ _, hk.symm⟩
      · have hbk : (g == k) = false := by simpa using hk
        simp only [List.lookup, hbk] at h
        obtain ⟨q, hq, hq1⟩ := ih h
        exact ⟨q, List.mem_cons_of_mem _ hq, hq1⟩

theorem lookup_map_set {l : List (String × List String)} {g : String}
    (w : List String) (hex : ∃ p ∈ l, p.1 = g) :
    (l.map (fun p => if p.1 = g then (p.1, w) else p)).lookup g = some w := by
  induction l with
  | nil => simp at hex
  | cons p t ih =>
      obtain ⟨k, v⟩ := p
      by_cases hk : k = g
      · subst hk
        have hmapc : List.map (fun p => if p.1 = k then (p.1, w) else p) ((k, v) :: t)
            = (k, w) :: List.map (fun p => if p.1 = k then (p.1, w) else p) t := by
          rw [List.map_cons]
          congr 1
          simp
        rw [hmapc]
        simp [List.lookup]
      · have hk' : g ≠ k := fun h => hk h.symm
        have hex' : ∃ p ∈ t, p.1 = g := by
          rcases hex with ⟨q, hq, hq1⟩
          rcases List.mem_cons.mp hq with h | h
          · rw [h] at hq1
            exact absurd hq1 hk
          · exact ⟨q, h, hq1⟩
        have hmapc : List.map (fun p => if p.1 = g then (p.1, w) else p) ((k, v) :: t)
            = (k, v) :: List.map (fun p => if p.1 = g then (p.1, w) else p) t := by
          rw [List.map_cons]
          congr 1
          simp [hk]
        rw [hmapc]
        have hbk : (g == k) = false := by simpa using hk'
        simp only [List.lookup, hbk]
        exact ih hex'

theorem joinGroup_mem (st : ServerState) (sid g : String) :
    roomIdsIncludeSocket (joinGroup st sid g) g sid = true := by
  unfold joinGroup roomIdsIncludeSocket
  cases hl : st.groups.lookup g with
  | none =>
      rw [lookup_append_of_none hl]
      simp [List.lookup]
  | some mem =>
      rw [lookup_map_set (if sid ∈ mem then mem else mem ++ [sid])
        (exists_key_of_lookup_eq_some hl)]
      by_cases hm : sid ∈ mem
      · simp [hm]
      · simp [hm]

theorem onConnection_frame (q : Query) (st : ServerState) :
    (onConnection q st).state.groups = st.groups ∧
    (onConnection q st).state.sockets = st.sockets := by
  rw [onConnection_state]
  exact handlePendings_frame q st

/-- Claim C1 (the code violates it): for the enterRoom event Ann sends
while Cafe1 is not open, onEnterRoom does call the acknowledgment with the
Room-must-be-open error, but it does NOT reject the call: the visitor
socket is joined to the Cafe1 group anyway, a checkIn event is broadcast to
that group, and the acknowledgment is then called a second time with a
success object. -/
theorem enterRoom_closed_room_not_rejected :
    groupExists stRV.groups "Cafe1" = false ∧
    outEnterClosed.acks.head? =
      some (JSVal.obj
        [("error", JSVal.str "Room must be open before you can enter"),
         ("on", JSVal.str "server.onEnterRoom")]) ∧
    outEnterClosed.acks.length = 2 ∧
    (outEnterClosed.emits.filter
      (fun e => decide (e.target = Target.group (some "Cafe1")) &&
        decide (e.event = some "checkIn"))).length = 1 ∧
    roomIdsIncludeSocket outEnterClosed.state "Cafe1" "v1" = true :=
  ⟨rfl, rfl, rfl, rfl, rfl⟩

/-- Claim C2 (counterexample): in the reachable state where the Room socket
of Cafe1 is connected but never joined its own group, and the visitor
socket v1 entered Cafe1 (which the enterRoom handler allows), the openRooms
snapshot reports Cafe1 as open although no Room connection named Cafe1 is a
member of the Cafe1 group, so the claimed characterisation of open is
false. -/
theorem open_reported_without_room_membership :
    reportedOpen stEntered "Cafe1" = true ∧
    isOpenSpec stEntered "Cafe1" = false :=
  ⟨rfl, rfl⟩

/-- Claim C2 (amended): a room name r is reported open by the openRooms
snapshot iff r is non-empty, some live socket carries room name r in its
query, and a group named r exists (has ANY member); membership of the room
connection itself is not required.  In particular r stops being reported
open as soon as no room-named socket remains. -/
theorem openRooms_reports_iff (st : ServerState) (r : String) :
    reportedOpen st r =
      ((r != "") && st.sockets.any (fun s => s.query.qroom == some r) &&
        groupExists st.groups r) :=
  reportedOpen_iff st r

/-- Claim C3 (the code violates it): with one alert pending for Bob, the
connect of the Bob socket reaches the visitor branch of handlePendings,
whose loop body calls the undefined bare identifier privateMessage: a
ReferenceError is thrown, no exposureAlert is emitted, and the cache is not
drained (the pending entry survives). -/
theorem visitor_connect_drain_throws :
    mapHas stPendingBob.pendingWarnings "Bob" = true ∧
    outBobConnect.err = some "ReferenceError: privateMessage is not defined" ∧
    outBobConnect.emits = [] ∧
    outBobConnect.disconnected = false ∧
    outBobConnect.state.pendingWarnings = stPendingBob.pendingWarnings :=
  ⟨rfl, rfl, rfl, rfl, rfl⟩

/-- Claim C4 (the code violates it in the open-room branch): with Cafe1
reported open, onExposureWarning routes through S.notifyRoom, which passes
three arguments to the two-parameter privateMessage: the only emit targets
the undefined group with an undefined event name and the string notifyRoom
as payload (nothing reaches the Cafe1 group), and the acknowledged per-room
result is the string (undefined WARNED), not WARNED for that room. -/
theorem exposureWarning_open_room_garbage :
    reportedOpen stOpen "Cafe1" = true ∧
    outWarnOpen.emits = [⟨Target.group none, none, JSVal.str "notifyRoom"⟩] ∧
    outWarnOpen.acks = [JSVal.obj
      [("event", JSVal.str "onExposureWarning"),
       ("result", JSVal.arr [JSVal.str "undefined WARNED"]),
       ("emit", JSVal.str "notifyRoom")]] ∧
    outWarnOpen.state.pendingWarnings = [] :=
  ⟨rfl, rfl, rfl, rfl⟩

/-- Claim C5 (the code violates it): the exposureWarning for closed Cafe1
is indeed acknowledged PENDING with exactly one cached entry, but the flush
performed when Cafe1 opens passes three arguments to the two-parameter
privateMessage: the flushed emit goes to the undefined group, carries Cafe1
as the event NAME and the string notifyRoom as payload, so the Cafe1 group
never receives a notifyRoom event with the enqueued exposure dates (whose
computed value is itself undefined, read as dates of an array). -/
theorem pending_warning_flush_garbage :
    outWarnClosed.acks = [JSVal.obj
      [("event", JSVal.str "onExposureWarning"),
       ("result", JSVal.arr [JSVal.str "Cafe1 PENDING"]),
       ("emit", JSVal.str "notifyRoom")]] ∧
    outWarnClosed.state.pendingWarnings = [("Cafe1", ewData dWarnCafe)] ∧
    outOpenFlush.state.pendingWarnings = [] ∧
    outOpenFlush.emits.length = 2 ∧
    outOpenFlush.emits.getLast? =
      some ⟨Target.group none, some "Cafe1", JSVal.str "notifyRoom"⟩ ∧
    (outOpenFlush.emits.filter
      (fun e => decide (e.target = Target.group (some "Cafe1")))).length = 0 :=
  ⟨rfl, rfl, rfl, rfl, rfl, rfl⟩

/-- Claim C6 (counterexample): with warnings pending for both Cafe1 and
Pub2, the flush triggered for Cafe1 empties the WHOLE cache: the entry
keyed Pub2, which the claim says is left unchanged, is removed as well. -/
theorem drain_removes_other_keys :
    mapHas stTwoPending.pendingWarnings "Cafe1" = true ∧
    mapHas stTwoPending.pendingWarnings "Pub2" = true ∧
    outDrainCafe.state.pendingWarnings = [] ∧
    mapHas outDrainCafe.state.pendingWarnings "Pub2" = false :=
  ⟨rfl, rfl, rfl, rfl⟩

/-- Claim C6 (amended): when a flush is triggered by a query naming room r
and some entry is pending for r, the forEach loop of handlePendings walks
the WHOLE cache in insertion order — every key, not only r — deleting each
visited entry and emitting one message per visited entry towards the
trigger (each to the undefined group, with r as event name).  It visits the
longest prefix of entries whose cached values have the warnings[key].dates
shape: when every entry has it the loop finishes and the cache is left
empty; otherwise the loop throws a TypeError at the first entry without it,
leaving that entry and all later ones cached.  (The cache is a JS Map, so
its keys are pairwise distinct.) -/
theorem handlePendings_room_flush_walks_whole_cache (q : Query) (r : String)
    (st : ServerState) (hq : q.qroom = some r) (hr : r ≠ "")
    (hp : mapHas st.pendingWarnings r = true)
    (hnd : NodupKeys st.pendingWarnings) :
    (handlePendings q st).state.pendingWarnings =
      st.pendingWarnings.drop
        (st.pendingWarnings.takeWhile (fun p => flushOk p.1 p.2)).length ∧
    (handlePendings q st).emits =
      (st.pendingWarnings.takeWhile (fun p => flushOk p.1 p.2)).map
        (fun _ => ⟨Target.group none, some r, JSVal.str "notifyRoom"⟩) ∧
    ((handlePendings q st).err = none ↔
      ∀ p ∈ st.pendingWarnings, flushOk p.1 p.2 = true) ∧
    ((∀ p ∈ st.pendingWarnings, flushOk p.1 p.2 = true) →
      (handlePendings q st).state.pendingWarnings = []) := by
  have h1 : handlePendings q st =
      (let res := flushRoomLoop r st.pendingWarnings st []
       { state := res.1, emits := res.2.1, err := res.2.2, retMsg := none }) := by
    obtain ⟨qid, qroom0, qvis, qadm, qst⟩ := q
    simp only [Query.qroom] at hq
    subst hq
    simp [handlePendings, truthyS, hr, hp]
  have hmain := flushRoomLoop_self r st.pendingWarnings st [] rfl hnd
  rw [h1]
  refine ⟨hmain.1, by simpa using hmain.2.1, hmain.2.2, ?_⟩
  intro hall
  have hfin := hmain.1
  rw [List.takeWhile_eq_self_iff.mpr hall, List.drop_length] at hfin
  exact hfin

/-- Witness for the amended claim C6, applied twice: at the well-formed
two-entry cache (both entries flushed, cache emptied, Pub2 removed by a
drain for Cafe1) and at the mixed cache whose first entry is a visitor
alert without a warnings property (the loop throws at once and both entries
survive). -/
theorem handlePendings_room_flush_walks_whole_cache_witness :
    ((handlePendings qRoomCafe stTwoPending).state.pendingWarnings =
        stTwoPending.pendingWarnings.drop
          (stTwoPending.pendingWarnings.takeWhile
            (fun p => flushOk p.1 p.2)).length ∧
      ((∀ p ∈ stTwoPending.pendingWarnings, flushOk p.1 p.2 = true) →
        (handlePendings qRoomCafe stTwoPending).state.pendingWarnings = [])) ∧
    ((handlePendings qRoomCafe stMixed).state.pendingWarnings =
        stMixed.pendingWarnings.drop
          (stMixed.pendingWarnings.takeWhile
            (fun p => flushOk p.1 p.2)).length ∧
      ((handlePendings qRoomCafe stMixed).err = none ↔
        ∀ p ∈ stMixed.pendingWarnings, flushOk p.1 p.2 = true)) :=
  ⟨⟨(handlePendings_room_flush_walks_whole_cache qRoomCafe "Cafe1" stTwoPending
        rfl (by decide) rfl (by unfold NodupKeys; decide)).1,
    (handlePendings_room_flush_walks_whole_cache qRoomCafe "Cafe1" stTwoPending
        rfl (by decide) rfl (by unfold NodupKeys; decide)).2.2.2⟩,
   ⟨(handlePendings_room_flush_walks_whole_cache qRoomCafe "Cafe1" stMixed
        rfl (by decide) rfl (by unfold NodupKeys; decide)).1,
    (handlePendings_room_flush_walks_whole_cache qRoomCafe "Cafe1" stMixed
        rfl (by decide) rfl (by unfold NodupKeys; decide)).2.2.1⟩⟩

/-- Claim C7 (the code violates it): when Bob is online (one matching
visitor socket), onAlertVisitor calls S.alertVisitor, a method the
ServerProxy class does not have, so a TypeError is caught, no exposureAlert
is emitted and the acknowledgment is never called; when Bob is offline the
entry is cached but the handler returns before ack, so the acknowledgment
carries neither ALERTED nor PENDING in either case. -/
theorem alertVisitor_never_acknowledges :
    (visitorSockets stBobOnline).length = 1 ∧
    outAlertOnline.err = some "TypeError: S.alertVisitor is not a function" ∧
    outAlertOnline.acks = [] ∧
    outAlertOnline.emits = [] ∧
    outAlertOnline.state.pendingWarnings = [] ∧
    outAlertOffline.acks = [] ∧
    outAlertOffline.emits = [] ∧
    outAlertOffline.state.pendingWarnings = [("Bob", avData dAlertBob)] :=
  ⟨rfl, rfl, rfl, rfl, rfl, rfl, rfl, rfl⟩

/-- Claim C8 (counterexample): in the reachable state where the Cafe1 group
holds the room connection r1 and the visitor v1, getOccupancy returns the
full member count 2, not count minus one for the room connection; and for a
room with no group it throws instead of returning 0. -/
theorem getOccupancy_counts_room_connection :
    getOccupancy stOccupied (some "Cafe1") = Except.ok 2 ∧
    roomIdsIncludeSocket stOccupied "Cafe1" "r1" = true ∧
    stOccupied.groups.lookup "Cafe1" = some ["r1", "v1"] ∧
    (2 : Nat) - 1 = 1 ∧
    getOccupancy stOccupied (some "Cafe1") ≠ Except.ok 1 ∧
    getOccupancy stOccupied (some "Pub9") ≠ Except.ok 0 := by
  refine ⟨rfl, rfl, rfl, rfl, ?_, ?_⟩
  · intro h
    rw [show getOccupancy stOccupied (some "Cafe1") = Except.ok 2 from rfl] at h
    injection h with h
    exact absurd h (by decide)
  · intro h
    rw [show getOccupancy stOccupied (some "Pub9") =
      Except.error "TypeError: cannot read property length of undefined" from rfl] at h
    exact Except.noConfusion h

/-- Claim C8 (amended): for a non-empty room name, getOccupancy returns the
FULL member count of the group of that name, the room connection included,
and throws a TypeError (rather than returning 0) when no such group
exists. -/
theorem getOccupancy_full_member_count (st : ServerState) (r : String)
    (h : r ≠ "") :
    (∀ mem, st.groups.lookup r = some mem →
      getOccupancy st (some r) = Except.ok mem.length) ∧
    (st.groups.lookup r = none →
      getOccupancy st (some r) =
        Except.error "TypeError: cannot read property length of undefined") := by
  constructor
  · intro mem hm
    simp [getOccupancy, truthyS, h, hm]
  · intro hm
    simp [getOccupancy, truthyS, h, hm]

/-- Witness for the amended claim C8, at the occupied Cafe1 state. -/
theorem getOccupancy_full_member_count_witness :
    getOccupancy stOccupied (some "Cafe1") = Except.ok 2 ∧
    getOccupancy stOccupied (some "Pub9") =
      Except.error "TypeError: cannot read property length of undefined" :=
  ⟨(getOccupancy_full_member_count stOccupied "Cafe1" (by decide)).1
      ["r1", "v1"] rfl,
   (getOccupancy_full_member_count stOccupied "Pub9" (by decide)).2 rfl⟩

/-- Claim C9 (confirmed): at every reachable state the pendingWarnings Map
holds at most one entry per key, and a further enqueue for a key replaces
the stored payload, leaving exactly one entry carrying the new payload: a
drain can therefore deliver at most one message for that key. -/
theorem pendingWarnings_one_entry_per_key (st : ServerState) (h : Reach st)
    (k : String) (v : JSVal) :
    (st.pendingWarnings.filter (fun p => p.1 = k)).length ≤ 1 ∧
    (mapSet st.pendingWarnings k v).filter (fun p => p.1 = k) = [(k, v)] :=
  ⟨filter_key_length_le_one (reach_pend_nodup h),
   mapSet_filter_self v (reach_pend_nodup h)⟩

/-- Witness for claim C9, at the reachable state holding one pending alert
for Bob: setting Bob again replaces the entry. -/
theorem pendingWarnings_one_entry_per_key_witness :
    ((onAlertVisitor dAlertBob st0).state.pendingWarnings.filter
      (fun p => p.1 = "Bob")).length ≤ 1 ∧
    (mapSet (onAlertVisitor dAlertBob st0).state.pendingWarnings "Bob"
      (JSVal.str "second")).filter (fun p => p.1 = "Bob") =
      [("Bob", JSVal.str "second")] :=
  pendingWarnings_one_entry_per_key _
    (Reach.alertVisitorEv dAlertBob Reach.init) "Bob" (JSVal.str "second")

/-- Claim C10 (confirmed): a connection whose query carries no truthy id is
disconnected at once, with no emit, no pending-entry flush and no change to
groups or sockets; a connection with a truthy id is processed (not
disconnected), and when it names a room with state Opened its socket is
re-joined to that room group. -/
theorem connection_requires_id (sid : String) (q : Query) (st : ServerState)
    (hg : ∀ p ∈ st.groups, sid ∉ p.2)
    (hne : ∀ p ∈ st.groups, p.2 ≠ [])
    (hlk : st.groups.lookup sid = none)
    (hs : ∀ s ∈ st.sockets, s.sid ≠ sid) :
    (truthyS q.qid = false →
      (connectionHandler sid q st).disconnected = true ∧
      (connectionHandler sid q st).emits = [] ∧
      (connectionHandler sid q st).state.pendingWarnings = st.pendingWarnings ∧
      (connectionHandler sid q st).state.groups = st.groups ∧
      (connectionHandler sid q st).state.sockets = st.sockets) ∧
    (truthyS q.qid = true →
      (connectionHandler sid q st).disconnected = false) ∧
    (∀ r, truthyS q.qid = true → q.qroom = some r → r ≠ "" →
      q.qstate = some "Opened" →
      roomIdsIncludeSocket (connectionHandler sid q st).state r sid = true) := by
  have hadd : (addSocket st sid q).groups = st.groups ++ [(sid, [sid])] := by
    simp [addSocket, joinGroup, hlk]
  have hmap : st.groups.map (fun p => (p.1, p.2.filter (fun m => m ≠ sid)))
      = st.groups := by
    have h1 : ∀ p ∈ st.groups,
        (fun p => (p.1, p.2.filter (fun m => m ≠ sid))) p = id p := by
      intro p hp
      obtain ⟨a, b⟩ := p
      have hnb : sid ∉ b := hg (a, b) hp
      have hb : b.filter (fun m => m ≠ sid) = b :=
        List.filter_eq_self.mpr (fun m hm => by
          simp only [decide_eq_true_eq]
          intro heq
          exact hnb (heq ▸ hm))
      show (a, b.filter (fun m => m ≠ sid)) = (a, b)
      rw [hb]
    rw [List.map_congr_left h1, List.map_id]
  have hfil : st.groups.filter (fun p => ¬ p.2.isEmpty) = st.groups :=
    List.filter_eq_self.mpr (fun p hp => by
      simpa [List.isEmpty_iff] using hne p hp)
  refine ⟨?_, ?_, ?_⟩
  · intro hid
    have hnid : ¬ (truthyS q.qid = true) := by simp [hid]
    unfold connectionHandler
    rw [if_neg hnid]
    refine ⟨rfl, rfl, rfl, ?_, ?_⟩
    · show (removeSocket (addSocket st sid q) sid).groups = st.groups
      unfold removeSocket
      rw [hadd]
      simp only [List.map_append, List.filter_append, hmap]
      rw [hfil]
      simp
    · show (removeSocket (addSocket st sid q) sid).sockets = st.sockets
      unfold removeSocket
      have hsock : (addSocket st sid q).sockets = st.sockets ++ [⟨sid, q⟩] := rfl
      rw [hsock]
      simp only [List.filter_append]
      have h2 : st.sockets.filter (fun s => s.sid ≠ sid) = st.sockets :=
        List.filter_eq_self.mpr (fun s hsm => by simpa using hs s hsm)
      rw [h2]
      simp
  · intro hid
    unfold connectionHandler
    rw [if_pos hid]
    split
    · rfl
    · rfl
  · intro r hid hroom hr hst
    unfold connectionHandler
    rw [if_pos hid,
      if_pos (⟨by rw [hroom]; simpa [truthyS] using hr, hst⟩ :
        truthyS q.qroom = true ∧ q.qstate = some "Opened")]
    have hgd : q.qroom.getD "" = r := by rw [hroom]; rfl
    rw [hgd]
    show roomIdsIncludeSocket
      (onConnection q (joinGroup (addSocket st sid q) sid r)).state r sid = true
    have hg1 := (onConnection_frame q (joinGroup (addSocket st sid q) sid r)).1
    unfold roomIdsIncludeSocket
    rw [hg1]
    have h3 := joinGroup_mem (addSocket st sid q) sid r
    unfold roomIdsIncludeSocket at h3
    exact h3

/-- Witness for claim C10: a no-id connection is dropped, and an Opened
room connection is re-joined to its group. -/
theorem connection_requires_id_witness :
    (connectionHandler "v9" qNoId st0).disconnected = true ∧
    roomIdsIncludeSocket (connectionHandler "r1" qRoomOpened st0).state
      "Cafe1" "r1" = true :=
  ⟨((connection_requires_id "v9" qNoId st0 (by decide) (by decide) rfl
      (by decide)).1 rfl).1,
   (connection_requires_id "r1" qRoomOpened st0 (by decide) (by decide) rfl
      (by decide)).2.2 "Cafe1" rfl rfl (by decide) rfl⟩
